import Mathlib

/-!
# Verification of the Deduplication & Recommendation-Memory Engine

Shallow embedding of the engine of `hunter-ai-content-factory`:

* `src/intel/pain_store.py` — `PainStore` (record store, fingerprinting,
  similarity-assisted merge),
* `src/intel/github_hunter.py` / `src/intel/github_trending.py` —
  recommendation history (cooldown, pruning) and project selection,
* `src/intel/utils.py` — `generate_content_id`.

External effects are made explicit:

* the SQLite record store becomes a `List Record` carried in a state value;
* the ChromaDB collection becomes a `List (String × String)` of
  `(id, document)` pairs, together with an abstract embedding distance
  `dist : String → String → ℚ` (ChromaDB returns L2 distances, which the
  code converts via `similarity = 1 / (1 + distance)`);
* exceptions raised by the vector backend are modelled by the oracles
  `queryFails` / `upsertFails` (the code catches them and degrades);
* `hashlib.sha256(raw.encode()).hexdigest()[:32]` is modelled by an
  abstract deterministic `hashFn : String → String` applied to the same
  raw pre-image `f"{source}:{content}"` the code builds;
* `datetime.now()` becomes an explicit `now : Nat` argument; calendar
  dates (`"YYYY-MM-DD"` strings compared lexicographically in the code,
  which coincides with day order) become day numbers `Int`.

Python `list(set(xs))` (deduplication with unspecified order) is modelled
by `List.dedup`; all properties stated about tags are membership/set-level,
so the order difference is immaterial.
-/

namespace HunterAI

/-- `needle` occurs as a contiguous sublist of `hay`. -/
def containsSub (needle : List Char) : List Char → Bool
  | [] => needle.isEmpty
  | c :: rest => needle.isPrefixOf (c :: rest) || containsSub needle rest

/-- Python's substring test `needle in hay` (`str.__contains__`). -/
def strContains (hay needle : String) : Bool :=
  containsSub needle.toList hay.toList

/-- Python truthiness of an optional string: `None` and `""` are falsy. -/
def pyTruthy : Option String → Bool
  | none => false
  | some s => s ≠ ""

/-- `bool(x) ? x : y` for optional strings — Python's `x or y`. -/
def pyOr (x y : Option String) : Option String :=
  if pyTruthy x then x else y

/-- `x or d` where `d` is a plain string — Python's `x or default`. -/
def pyOrDefault (x : Option String) (d : String) : String :=
  match x with
  | none => d
  | some s => if s = "" then d else s

/-! ## Tag constants (pain_store.py lines 122-156) -/

/-- `PRODUCT_TAGS` from pain_store.py. -/
def PRODUCT_TAGS : List String :=
  ["ChatGPT", "Claude", "Gemini", "DeepSeek", "Cursor", "Windsurf",
   "Copilot", "Perplexity", "Midjourney", "DALL-E", "Stable Diffusion",
   "LangChain", "LlamaIndex", "OpenAI API", "Anthropic API"]

/-- `CATEGORY_TAGS` from pain_store.py (insertion-ordered dict as assoc list). -/
def CATEGORY_TAGS : List (String × List String) :=
  [("性能", ["slow", "timeout", "lag", "latency", "速度慢", "卡顿", "超时"]),
   ("准确性", ["wrong", "incorrect", "hallucination", "错误", "不准确", "胡说"]),
   ("功能", ["missing", "not working", "broken", "功能缺失", "不工作", "坏了"]),
   ("体验", ["confusing", "hard to use", "ugly", "难用", "界面", "体验差"]),
   ("定价", ["expensive", "pricing", "cost", "贵", "收费", "价格"]),
   ("API", ["api error", "rate limit", "quota", "接口", "限流", "配额"]),
   ("稳定性", ["crash", "down", "outage", "崩溃", "宕机", "不稳定"])]

/-- `SEVERITY_KEYWORDS` from pain_store.py. -/
def SEVERITY_KEYWORDS : List (String × List String) :=
  [("blocker", ["can't", "impossible", "completely", "totally", "完全不能", "彻底"]),
   ("major", ["very", "really", "seriously", "非常", "严重", "很"]),
   ("minor", ["sometimes", "occasionally", "slightly", "有时", "偶尔", "轻微"])]

/-- Python's `str.lower()` (character-wise lowering; defined by structural
recursion over the character list so that it evaluates by kernel
reduction, unlike `String.toLower`). -/
def strToLower (s : String) : String :=
  String.mk (s.data.map Char.toLower)

/-- `PainStore._infer_tags`: product tags then category tags, deduplicated. -/
def infer_tags (content : String) : List String :=
  let lower := strToLower content
  let productTags := (PRODUCT_TAGS.filter (fun p => strContains lower (strToLower p))).map
    (fun p => "product:" ++ p)
  let categoryTags := (CATEGORY_TAGS.filter
      (fun ck => ck.2.any (fun k => strContains lower (strToLower k)))).map
    (fun ck => "category:" ++ ck.1)
  (productTags ++ categoryTags).dedup

/-- `PainStore._infer_category`: first matching category, else `"其他"`. -/
def infer_category (content : String) : String :=
  let lower := strToLower content
  match CATEGORY_TAGS.find? (fun ck => ck.2.any (fun k => strContains lower (strToLower k))) with
  | some ck => ck.1
  | none => "其他"

/-- `PainStore._infer_severity`: first matching severity, else `"minor"`. -/
def infer_severity (content : String) : String :=
  let lower := strToLower content
  match SEVERITY_KEYWORDS.find? (fun sk => sk.2.any (fun k => strContains lower (strToLower k))) with
  | some sk => sk.1
  | none => "minor"

/-- `PainStore._infer_platform`: first matching product, else `None`. -/
def infer_platform (content : String) : Option String :=
  let lower := strToLower content
  (PRODUCT_TAGS.find? (fun p => strContains lower (strToLower p)))

/-! ## Data model (`PainPointModel`) -/

/-- A row of the `pain_points` table (`PainPointModel`). -/
structure Record where
  id : String
  content : String
  content_normalized : String
  source : String
  platform : Option String
  author : Option String
  original_url : Option String
  tags : List String
  category : String
  severity : String
  ai_analysis : Option String
  ai_solution : Option String
  frequency : Nat
  merged_from : List String
  is_primary : Nat
  merged_to : Option String
  created_at : Nat
  updated_at : Nat
deriving Repr, DecidableEq

/-- The mutable state of a `PainStore`: the SQLite rows, whether the
ChromaDB collection was initialised (`vector_collection is not None`),
and the `(id, document)` pairs held by that collection. -/
structure PainStoreState where
  records : List Record
  vectorAvailable : Bool
  vectorDocs : List (String × String)
deriving Repr, DecidableEq

/-- The deterministic environment of a store: the truncated-SHA256 content
hash, the embedding distance of the vector backend, and oracles telling
which backend calls raise (the code catches those exceptions). -/
structure Backend where
  hashFn : String → String
  dist : String → String → ℚ
  queryFails : String → Bool
  upsertFails : String → Bool

/-- `PainStore._generate_id`: hash of the raw string `f"{source}:{content}"`.
Note the pre-image mentions only `source` and `content`. -/
def generate_id (b : Backend) (content source : String) : String :=
  b.hashFn (source ++ ":" ++ content)

/-- The raw pre-image `f"{source}:{content}"` fed to the hash. -/
def raw_fingerprint (content source : String) : String :=
  source ++ ":" ++ content

/-- `PainStore.SIMILARITY_THRESHOLD = 0.80`. -/
def SIMILARITY_THRESHOLD : ℚ := 4 / 5

/-- ChromaDB `query(..., n_results=1)`: the stored document nearest to the
query (first one on ties), with its distance. -/
def nearestDoc (dist : String → String → ℚ) (q : String) :
    List (String × String) → Option (String × ℚ)
  | [] => none
  | (i, doc) :: rest =>
    match nearestDoc dist q rest with
    | none => some (i, dist q doc)
    | some (j, d') =>
      let d := dist q doc
      if d ≤ d' then some (i, d) else some (j, d')

/-- The conversion `similarity = 1 / (1 + distance)` applied to the L2
distance returned by ChromaDB. -/
def similarity_from_distance (distance : ℚ) : ℚ :=
  1 / (1 + distance)

/-- The row filter `PainPointModel.id == pain_id, PainPointModel.is_primary == 1`
used by `find_similar`. -/
def primWithId (pid : String) (r : Record) : Bool :=
  r.id = pid ∧ r.is_primary = 1

/-- The row filter `PainPointModel.id == pain_id` used by the exact-match
lookup of `add_pain`. -/
def hasId (pid : String) (r : Record) : Bool :=
  r.id = pid

/-- `PainStore.find_similar`: vector query, similarity conversion
`1 / (1 + distance)`, threshold test, then a lookup of the matched id
among primary rows.  Backend exceptions are caught and yield `None`. -/
def find_similar (b : Backend) (st : PainStoreState) (content : String)
    (threshold : ℚ) : Option Record :=
  if st.vectorAvailable = false then none
  else if b.queryFails content then none
  else
    match nearestDoc b.dist content st.vectorDocs with
    | none => none
    | some (painId, distance) =>
      if threshold ≤ similarity_from_distance distance then
        match st.records.find? (primWithId painId) with
        | some pain => some pain
        | none => none
      else none

/-- Update (in place) the row with the given primary key. -/
def updateRecord (rs : List Record) (rid : String) (f : Record → Record) :
    List Record :=
  match rs with
  | [] => []
  | r :: rest => if r.id = rid then f r :: rest else r :: updateRecord rest rid f

/-- ChromaDB `upsert(ids=[i], documents=[doc])`: replace the document with
that id, or append it. -/
def upsertDoc (docs : List (String × String)) (i doc : String) :
    List (String × String) :=
  if docs.any (fun d => d.1 = i) then
    docs.map (fun d => if d.1 = i then (i, doc) else d)
  else docs ++ [(i, doc)]

/-- `PainStore._add_to_vector_db`: best-effort upsert of the new row into
the vector collection; failures are swallowed. -/
def add_to_vector_db (b : Backend) (st : PainStoreState) (pain : Record) :
    PainStoreState :=
  if st.vectorAvailable = false then st
  else if b.upsertFails pain.id then st
  else { st with vectorDocs := upsertDoc st.vectorDocs pain.id pain.content }

/-- The row produced by `PainStore._merge_pain` out of the primary row:
bump frequency, union tags, record merge provenance, keep the longer AI
analysis, refresh `updated_at`. -/
def merged_record (b : Backend) (now : Nat) (primary : Record)
    (newContent newSource : String) (newTags : List String)
    (newAnalysis : Option String) : Record :=
  let newId := generate_id b newContent newSource
  let mergedFrom :=
    if newId ∈ primary.merged_from then primary.merged_from
    else primary.merged_from ++ [newId]
  let analysis :=
    if pyTruthy newAnalysis ∧
        (¬ pyTruthy primary.ai_analysis ∨
          (primary.ai_analysis.getD "").length < (newAnalysis.getD "").length) then
      newAnalysis
    else primary.ai_analysis
  { primary with
    frequency := primary.frequency + 1
    updated_at := now
    tags := (primary.tags ++ newTags).dedup
    merged_from := mergedFrom
    ai_analysis := analysis }

/-- `PainStore._merge_pain`: commit the `merged_record` over the primary
row; report `(primary, False)`. -/
def merge_pain (b : Backend) (now : Nat) (st : PainStoreState)
    (primary : Record) (newContent newSource : String)
    (newTags : List String) (newAnalysis : Option String) :
    PainStoreState × Record × Bool :=
  let updated := merged_record b now primary newContent newSource newTags newAnalysis
  ({ st with records := updateRecord st.records primary.id (fun _ => updated) },
   updated, false)

/-- The keyword arguments of `PainStore.add_pain` (defaults as in the
Python signature: optional fields `None`, `auto_merge=True`). -/
structure AddArgs where
  content : String
  source : String
  author : Option String
  platform : Option String
  original_url : Option String
  tags : Option (List String)
  category : Option String
  severity : Option String
  ai_analysis : Option String
  auto_merge : Bool
deriving Repr, DecidableEq

/-- The in-place update `add_pain` applies to a row hit by the exact
fingerprint lookup: bump frequency, refresh `updated_at`, union tags. -/
def updated_existing (now : Nat) (finalTags : List String)
    (existing : Record) : Record :=
  { existing with
    frequency := existing.frequency + 1
    updated_at := now
    tags := (existing.tags ++ finalTags).dedup }

/-- The fresh primary row `add_pain` inserts on a complete miss. -/
def new_record (b : Backend) (now : Nat) (a : AddArgs)
    (finalTags : List String) : Record :=
  { id := generate_id b a.content a.source
    content := a.content
    content_normalized := (strToLower a.content).trim
    source := a.source
    platform := pyOr a.platform (infer_platform a.content)
    author := a.author
    original_url := a.original_url
    tags := finalTags
    category := pyOrDefault a.category (infer_category a.content)
    severity := pyOrDefault a.severity (infer_severity a.content)
    ai_analysis := a.ai_analysis
    ai_solution := none
    frequency := 1
    merged_from := []
    is_primary := 1
    merged_to := none
    created_at := now
    updated_at := now }

/-- The exact-match tier of `add_pain` (everything after the
`auto_merge` block): compute the fingerprint id, update the existing row
on a hit, otherwise insert a fresh primary row and upsert it into the
vector collection. -/
def exact_branch (b : Backend) (now : Nat) (st : PainStoreState)
    (a : AddArgs) (finalTags : List String) : PainStoreState × Record × Bool :=
  let painId := generate_id b a.content a.source
  match st.records.find? (hasId painId) with
  | some existing =>
    ({ st with
       records := updateRecord st.records painId
         (fun _ => updated_existing now finalTags existing) },
     updated_existing now finalTags existing, false)
  | none =>
    let pain := new_record b now a finalTags
    let st1 := { st with records := st.records ++ [pain] }
    (add_to_vector_db b st1 pain, pain, true)

/-- `list(set((tags or []) + inferred_tags))` computed by `add_pain`. -/
def final_tags (a : AddArgs) : List String :=
  ((a.tags.getD []) ++ infer_tags a.content).dedup

/-- `PainStore.add_pain`.  Note the control flow of the source: when
`auto_merge` is set, `find_similar` runs FIRST, and only on a similarity
miss does the exact-fingerprint lookup happen. -/
def add_pain (b : Backend) (now : Nat) (st : PainStoreState) (a : AddArgs) :
    PainStoreState × Record × Bool :=
  if a.auto_merge then
    match find_similar b st a.content SIMILARITY_THRESHOLD with
    | some similar =>
      merge_pain b now st similar a.content a.source (final_tags a) a.ai_analysis
    | none => exact_branch b now st a (final_tags a)
  else exact_branch b now st a (final_tags a)

/-- Number of primary rows (`is_primary == 1`). -/
def primaryCount (st : PainStoreState) : Nat :=
  (st.records.filter (fun r => r.is_primary = 1)).length

/-! ## `src/intel/utils.py` -/

/-- `generate_content_id(source, content, author)`:
`f"{source}_{author}_{md5(content)}"`, with the MD5 digest abstracted to a
deterministic `digest` function. -/
def generate_content_id (digest : String → String)
    (source content author : String) : String :=
  source ++ "_" ++ author ++ "_" ++ digest content

/-! ## Recommendation history (`github_hunter.py` / `github_trending.py`)

Both files carry identical copies of `_is_recently_recommended` and of the
pruning step of `_save_history` (`GitHubHunter` lines 101-122,
`GitHubTrendingHunter` lines 290-329); one model serves both.  The on-disk
`"YYYY-MM-DD"` strings are compared with `>` in Python, which for
zero-padded ISO dates coincides with chronological order, so dates are
modelled as day numbers `Int`. -/

/-- One entry of `recommended_projects.json`. -/
structure HistEntry where
  name : String
  recommended_at : Int
  stars : Nat
deriving Repr, DecidableEq

/-- `COOLDOWN_DAYS = 30` (same constant in both hunter classes). -/
def COOLDOWN_DAYS : Int := 30

/-- The 90-day retention horizon hard-coded in both `_save_history`
implementations. -/
def RETENTION_DAYS : Int := 90

/-- `_is_recently_recommended`: scan the history; report `True` as soon
as a record with this name has `recommended_at > today - cooldown`. -/
def is_recently_recommended (hist : List HistEntry) (today cooldownDays : Int)
    (projectName : String) : Bool :=
  hist.any (fun r => r.name = projectName ∧ today - cooldownDays < r.recommended_at)

/-- Spec §4.6 eligibility = not recently recommended. -/
def is_eligible (hist : List HistEntry) (today : Int) (projectName : String) : Bool :=
  ! is_recently_recommended hist today COOLDOWN_DAYS projectName

/-- The pruning step of `_save_history`: keep exactly the entries with
`recommended_at > today - 90`. -/
def prune_history (hist : List HistEntry) (today : Int) : List HistEntry :=
  hist.filter (fun p => today - RETENTION_DAYS < p.recommended_at)

/-- The upsert loop of `_save_history`: update `recommended_at`/`stars`
of an existing entry with the same name, else append a new entry. -/
def upsertHistEntry (hist : List HistEntry) (today : Int)
    (name : String) (stars : Nat) : List HistEntry :=
  if hist.any (fun p => p.name = name) then
    hist.map (fun p =>
      if p.name = name then { p with recommended_at := today, stars := stars } else p)
  else hist ++ [{ name := name, recommended_at := today, stars := stars }]

/-- `_save_history` (state part): upsert each newly recommended project,
then prune entries past the retention horizon. -/
def save_history (hist : List HistEntry) (today : Int)
    (newProjects : List (String × Nat)) : List HistEntry :=
  prune_history (newProjects.foldl (fun h pr => upsertHistEntry h today pr.1 pr.2) hist) today

/-! ## Project selection (`github_trending.py`) -/

/-- `TrendingProject` dataclass. -/
structure TrendingProject where
  name : String
  description : String
  stars : Nat
  forks : Nat
  today_stars : Nat
  language : String
  url : String
  topics : List String
deriving Repr, DecidableEq, Inhabited

/-- `GitHubTrendingHunter.select_projects`.  The ChromaDB semantic layer
`_is_similar_in_chromadb` is abstracted to the oracle `similarB` (it
consults only external vector state).  On shortfall the code raises
`ValueError` carrying the have/need counts; this is modelled as
`Except.error (have, need)`. -/
def select_projects (hist : List HistEntry) (today : Int)
    (similarB : TrendingProject → Bool) (projects : List TrendingProject) :
    Except (Nat × Nat) (List TrendingProject × TrendingProject) :=
  let filtered := projects.filter (fun p =>
    ! is_recently_recommended hist today COOLDOWN_DAYS p.name && ! similarB p)
  if filtered.length < 3 then .error (filtered.length, 3)
  else
    let sortedByGrowth := filtered.mergeSort (fun x y => y.today_stars ≤ x.today_stars)
    let briefProjects := sortedByGrowth.take 2
    let remaining := filtered.filter (fun p => ¬ p ∈ briefProjects)
    let deepDive :=
      match remaining with
      | r :: _ => r
      | [] => sortedByGrowth.getD 2 default
    .ok (briefProjects, deepDive)

/-- `KEYWORD_EXPANSION` from `github_trending.py`. -/
def KEYWORD_EXPANSION : List (String × List String) :=
  [("ai", ["artificial intelligence", "machine learning", "deep learning", "neural network"]),
   ("llm", ["large language model", "gpt", "chatbot", "nlp", "transformer"]),
   ("agent", ["ai agent", "autonomous agent", "llm agent", "multi-agent"]),
   ("rag", ["retrieval augmented", "vector database", "embedding", "semantic search"]),
   ("ml", ["machine learning", "deep learning", "tensorflow", "pytorch"]),
   ("chatbot", ["conversational ai", "chat assistant", "llm chat", "dialogue"]),
   ("automation", ["workflow automation", "ai automation", "auto", "pipeline"]),
   ("langchain", ["llm framework", "ai chain", "agent framework", "llm toolkit"]),
   ("vector", ["vector database", "embedding", "similarity search", "semantic"]),
   ("diffusion", ["stable diffusion", "image generation", "text to image", "generative"]),
   ("mcp", ["model context protocol", "claude mcp", "anthropic mcp"]),
   ("claude", ["anthropic", "claude ai", "sonnet", "opus"]),
   ("openai", ["gpt", "chatgpt", "openai api", "gpt-4"]),
   ("gemini", ["google ai", "palm", "bard", "vertex ai"])]

/-- Fallback keywords tried by `_get_next_keyword`. -/
def FALLBACK_KEYWORDS : List String :=
  ["llm", "agent", "rag", "automation", "langchain", "ml", "chatbot"]

/-- `GitHubTrendingHunter._get_next_keyword`: first untried keyword from
the expansion of the current keyword, else from the fallback list. -/
def get_next_keyword (keyword : String) (tried : List String) : Option String :=
  let triedLower := tried.map strToLower
  let fromExpansion :=
    match KEYWORD_EXPANSION.find? (fun kv => kv.1 = keyword) with
    | some kv => kv.2.find? (fun kw => ! triedLower.contains (strToLower kw))
    | none => none
  match fromExpansion with
  | some kw => some kw
  | none => FALLBACK_KEYWORDS.find? (fun kw => ! triedLower.contains (strToLower kw))

/-- The `(id, is_primary)` skeleton of the table: everything the control
flow of `add_pain` can branch on besides the vector state. -/
def idPrim (st : PainStoreState) : List (String × Nat) :=
  st.records.map (fun r => (r.id, r.is_primary))

/-! ## Concrete instances used by witnesses and counterexamples

`idHash` stands in for the truncated SHA-256 digest (any deterministic
function is admissible for the abstract `hashFn`); `farApart` is an
embedding distance keeping every pair of texts at L2 distance 1
(similarity `1/2`, below the 0.80 threshold), `allColliding` keeps every
pair at distance 0 (similarity 1). -/

def idHash : String → String := fun s => s

def farApart : String → String → ℚ := fun _ _ => 1

def allColliding : String → String → ℚ := fun _ _ => 0

def never : String → Bool := fun _ => false

def plainBackend : Backend :=
  { hashFn := idHash, dist := farApart, queryFails := never, upsertFails := never }

def collidingBackend : Backend :=
  { hashFn := idHash, dist := allColliding, queryFails := never, upsertFails := never }

def emptyOnline : PainStoreState :=
  { records := [], vectorAvailable := true, vectorDocs := [] }

def emptyOffline : PainStoreState :=
  { records := [], vectorAvailable := false, vectorDocs := [] }

def plainRow (i c s : String) : Record :=
  { id := i, content := c, content_normalized := c, source := s, platform := none,
    author := none, original_url := none, tags := [], category := "其他",
    severity := "minor", ai_analysis := none, ai_solution := none, frequency := 1,
    merged_from := [], is_primary := 1, merged_to := none, created_at := 0,
    updated_at := 0 }

def helloArgs (authorName : String) : AddArgs :=
  { content := "hello", source := "twitter", author := some authorName,
    platform := none, original_url := none, tags := none, category := none,
    severity := none, ai_analysis := none, auto_merge := true }

def emptyContentArgs : AddArgs :=
  { content := "", source := "twitter", author := none, platform := none,
    original_url := none, tags := none, category := none, severity := none,
    ai_analysis := none, auto_merge := true }

def rowA : Record := plainRow "twitter:hello" "hello" "twitter"

def rowB : Record := plainRow "twitter:world" "world" "twitter"

/-- A store whose table holds the exact row for `("hello", "twitter")`
and a second primary row, and whose vector collection indexes only the
second row. -/
def twoRowStore : PainStoreState :=
  { records := [rowA, rowB], vectorAvailable := true,
    vectorDocs := [("twitter:world", "world")] }

def sampleProject (n : String) (growth : Nat) : TrendingProject :=
  { name := n, description := "", stars := 100, forks := 0, today_stars := growth,
    language := "Python", url := "", topics := [] }

/-- A store holding only the exact row for `("hello", "twitter")`, indexed
in the vector collection. -/
def oneRowStore : PainStoreState :=
  { records := [rowA], vectorAvailable := true,
    vectorDocs := [("twitter:hello", "hello")] }

def tagRow : Record := { plainRow "twitter:world" "world" "twitter" with tags := ["a", "b"] }

def tagStore : PainStoreState :=
  { records := [tagRow], vectorAvailable := false, vectorDocs := [] }

/-! ## Structural lemmas about the record store -/

theorem add_to_vector_db_records (b : Backend) (st : PainStoreState) (p : Record) :
    (add_to_vector_db b st p).records = st.records := by
  unfold add_to_vector_db
  split
  · rfl
  · split <;> rfl

theorem add_to_vector_db_vectorAvailable (b : Backend) (st : PainStoreState) (p : Record) :
    (add_to_vector_db b st p).vectorAvailable = st.vectorAvailable := by
  unfold add_to_vector_db
  split
  · rfl
  · split <;> rfl

theorem updateRecord_length (rs : List Record) (rid : String) (g : Record → Record) :
    (updateRecord rs rid g).length = rs.length := by
  induction rs with
  | nil => rfl
  | cons r rest ih =>
    simp only [updateRecord]
    split <;> simp [ih]

theorem hasId_iff (pid : String) (r : Record) : hasId pid r = true ↔ r.id = pid := by
  simp [hasId]

theorem primWithId_iff (pid : String) (r : Record) :
    primWithId pid r = true ↔ (r.id = pid ∧ r.is_primary = 1) := by
  simp [primWithId]

/-- `updateRecord` rewrites exactly the row `find?` locates: the list
splits around that row, everything before it having a different id. -/
theorem updateRecord_find?_decomp (rs : List Record) (rid : String)
    (g : Record → Record) (e : Record)
    (h : rs.find? (hasId rid) = some e) :
    ∃ l1 l2, rs = l1 ++ e :: l2
      ∧ updateRecord rs rid g = l1 ++ g e :: l2
      ∧ ∀ x ∈ l1, x.id ≠ rid := by
  induction rs with
  | nil => simp at h
  | cons r rest ih =>
    by_cases hr : r.id = rid
    · rw [List.find?_cons_of_pos _ ((hasId_iff rid r).mpr hr)] at h
      have he : r = e := Option.some.inj h
      subst he
      refine ⟨[], rest, by simp, ?_, ?_⟩
      · simp [updateRecord, hr]
      · intro x hx
        simp at hx
    · rw [List.find?_cons_of_neg _ (by simpa [hasId_iff] using hr)] at h
      obtain ⟨l1, l2, hsplit, hupd, hl1⟩ := ih h
      refine ⟨r :: l1, l2, by simp [hsplit], ?_, ?_⟩
      · simp [updateRecord, hr, hupd]
      · intro x hx
        rcases List.mem_cons.mp hx with hx | hx
        · simpa [hx] using hr
        · exact hl1 x hx

/-- In a table with no duplicate ids, `find?` by the id of a member row
returns that row. -/
theorem find?_id_of_mem_nodup (rs : List Record) (r0 : Record)
    (hmem : r0 ∈ rs) (hnodup : (rs.map Record.id).Nodup) :
    rs.find? (hasId r0.id) = some r0 := by
  induction rs with
  | nil => cases hmem
  | cons r rest ih =>
    rw [List.map_cons, List.nodup_cons] at hnodup
    rcases List.mem_cons.mp hmem with h | h
    · subst h
      exact List.find?_cons_of_pos _ (by simp [hasId])
    · have hne : ¬ r.id = r0.id := by
        intro he
        exact hnodup.1 (he ▸ List.mem_map_of_mem Record.id h)
      rw [List.find?_cons_of_neg _ (by simpa [hasId_iff] using hne)]
      exact ih h hnodup.2

/-- Replacing the located row by a row with the same id and primary flag
leaves the `(id, is_primary)` skeleton unchanged. -/
theorem idPrim_updateRecord (rs : List Record) (rid : String)
    (g : Record → Record) (e : Record)
    (h : rs.find? (hasId rid) = some e)
    (hid : (g e).id = e.id) (hprim : (g e).is_primary = e.is_primary) :
    (updateRecord rs rid g).map (fun r => (r.id, r.is_primary))
      = rs.map (fun r => (r.id, r.is_primary)) := by
  obtain ⟨l1, l2, hsplit, hupd, -⟩ := updateRecord_find?_decomp rs rid g e h
  rw [hupd, hsplit]
  simp [hid, hprim]

/-- `find?` by the updated id, after the update, returns the new row
(provided the new row keeps that id). -/
theorem find?_id_updateRecord (rs : List Record) (rid : String)
    (g : Record → Record) (e : Record)
    (h : rs.find? (hasId rid) = some e)
    (hid : (g e).id = rid) :
    (updateRecord rs rid g).find? (hasId rid) = some (g e) := by
  obtain ⟨l1, l2, hsplit, hupd, hl1⟩ := updateRecord_find?_decomp rs rid g e h
  rw [hupd, List.find?_append]
  have h1 : l1.find? (hasId rid) = none := by
    rw [List.find?_eq_none]
    intro x hx
    simpa [hasId_iff] using hl1 x hx
  rw [h1, List.find?_cons_of_pos _ ((hasId_iff rid (g e)).mpr hid)]
  rfl

theorem updateRecord_of_find?_none (rs : List Record) (rid : String)
    (g : Record → Record) (h : rs.find? (hasId rid) = none) :
    updateRecord rs rid g = rs := by
  induction rs with
  | nil => rfl
  | cons r rest ih =>
    by_cases hr : r.id = rid
    · rw [List.find?_cons_of_pos _ ((hasId_iff rid r).mpr hr)] at h
      exact Option.noConfusion h
    · rw [List.find?_cons_of_neg _ (by simpa [hasId_iff] using hr)] at h
      simp [updateRecord, hr, ih h]

theorem mem_updateRecord (rs : List Record) (rid : String)
    (g : Record → Record) (r' : Record) (h : r' ∈ updateRecord rs rid g) :
    r' ∈ rs ∨ ∃ e, rs.find? (hasId rid) = some e ∧ r' = g e := by
  rcases hf : rs.find? (hasId rid) with _ | e
  · rw [updateRecord_of_find?_none rs rid g hf] at h
    exact Or.inl h
  · obtain ⟨l1, l2, hsplit, hupd, -⟩ := updateRecord_find?_decomp rs rid g e hf
    rw [hupd] at h
    rcases List.mem_append.mp h with h | h
    · exact Or.inl (hsplit ▸ List.mem_append.mpr (Or.inl h))
    · rcases List.mem_cons.mp h with h | h
      · exact Or.inr ⟨e, rfl, h⟩
      · exact Or.inl (hsplit ▸ List.mem_append.mpr (Or.inr (List.mem_cons.mpr (Or.inr h))))

theorem string_data_inj (s t : String) (h : s.data = t.data) : s = t := by
  cases s
  cases t
  exact congrArg String.mk h

theorem string_eq_empty_of_length_eq_zero (s : String) (h : s.length = 0) :
    s = "" := by
  cases s with
  | mk dat =>
    cases dat with
    | nil => rfl
    | cons c cs => simp [String.length] at h

/-- The raw pre-image `f"{source}:{content}"` determines the content for
a fixed source. -/
theorem raw_fingerprint_inj_content (source c c' : String)
    (h : raw_fingerprint c source = raw_fingerprint c' source) : c = c' := by
  unfold raw_fingerprint at h
  have hd := congrArg String.data h
  simp only [String.data_append, List.append_assoc] at hd
  have h2 := List.append_cancel_left (List.append_cancel_left hd)
  exact string_data_inj c c' h2

/-! ## Lemmas about `find_similar` -/

theorem find_similar_some_elim (b : Backend) (st : PainStoreState)
    (c : String) (θ : ℚ) (p : Record)
    (h : find_similar b st c θ = some p) :
    st.vectorAvailable = true ∧ b.queryFails c = false ∧
    ∃ pid d, nearestDoc b.dist c st.vectorDocs = some (pid, d)
      ∧ θ ≤ similarity_from_distance d
      ∧ st.records.find? (primWithId pid) = some p
      ∧ p.id = pid ∧ p.is_primary = 1 := by
  unfold find_similar at h
  by_cases h1 : st.vectorAvailable = false
  · rw [if_pos h1] at h
    exact Option.noConfusion h
  rw [if_neg h1] at h
  by_cases h2 : b.queryFails c = true
  · rw [if_pos h2] at h
    exact Option.noConfusion h
  rw [if_neg h2] at h
  rcases hnd : nearestDoc b.dist c st.vectorDocs with _ | ⟨pid, d⟩
  · rw [hnd] at h
    exact Option.noConfusion h
  rw [hnd] at h
  replace h : (if θ ≤ similarity_from_distance d then
      match st.records.find? (primWithId pid) with
      | some pain => some pain
      | none => none
    else none) = some p := h
  by_cases h3 : θ ≤ similarity_from_distance d
  · rw [if_pos h3] at h
    rcases hf : st.records.find? (primWithId pid) with _ | q
    · rw [hf] at h
      exact Option.noConfusion h
    · rw [hf] at h
      replace h : some q = some p := h
      have hq : q = p := Option.some.inj h
      subst hq
      have hpq := (primWithId_iff pid q).mp (List.find?_some hf)
      refine ⟨?_, ?_, pid, d, rfl, h3, hf, hpq.1, hpq.2⟩
      · cases hb : st.vectorAvailable
        · exact absurd hb h1
        · rfl
      · cases hb : b.queryFails c
        · rfl
        · exact absurd hb h2
  · rw [if_neg h3] at h
    exact Option.noConfusion h

theorem find_similar_updateRecord (b : Backend) (st : PainStoreState)
    (c : String) (θ : ℚ) (p u : Record)
    (hp : find_similar b st c θ = some p)
    (hnodup : (st.records.map Record.id).Nodup)
    (hid : u.id = p.id) (hprim : u.is_primary = p.is_primary) :
    find_similar b { st with records := updateRecord st.records p.id (fun _ => u) }
      c θ = some u := by
  obtain ⟨hva, hqf, pid, d, hnd, hθ, hf, hpid, hprim1⟩ :=
    find_similar_some_elim b st c θ p hp
  have hmem : p ∈ st.records := List.mem_of_find?_eq_some hf
  have hfid : st.records.find? (hasId p.id) = some p :=
    find?_id_of_mem_nodup st.records p hmem hnodup
  obtain ⟨l1, l2, hsplit, hupd, hl1⟩ :=
    updateRecord_find?_decomp st.records p.id (fun _ => u) p hfid
  have hfind' : (updateRecord st.records p.id (fun _ => u)).find?
      (primWithId pid) = some u := by
    rw [hupd, List.find?_append]
    have h1 : l1.find? (primWithId pid) = none := by
      rw [List.find?_eq_none]
      intro x hx
      have hxid := hl1 x hx
      simp only [primWithId_iff]
      rintro ⟨hxe, -⟩
      exact hxid (hxe.trans hpid.symm)
    rw [h1, List.find?_cons_of_pos _ ((primWithId_iff pid u).mpr
      ⟨hid.trans hpid, hprim.trans hprim1⟩)]
    rfl
  show find_similar b
    { records := updateRecord st.records p.id (fun _ => u)
      vectorAvailable := st.vectorAvailable
      vectorDocs := st.vectorDocs } c θ = some u
  unfold find_similar
  rw [if_neg (by simp [hva]), if_neg (by simp [hqf])]
  show (match nearestDoc b.dist c st.vectorDocs with
    | none => none
    | some (painId, distance) =>
      if θ ≤ similarity_from_distance distance then
        match (updateRecord st.records p.id (fun _ => u)).find? (primWithId painId) with
        | some pain => some pain
        | none => none
      else none) = some u
  rw [hnd]
  replace hfind' := hfind'
  show (if θ ≤ similarity_from_distance d then
      match (updateRecord st.records p.id (fun _ => u)).find? (primWithId pid) with
      | some pain => some pain
      | none => none
    else none) = some u
  rw [if_pos hθ, hfind']

theorem find?_prim_eq_none_iff (rs : List Record) (pid : String) :
    (rs.find? (primWithId pid) = none)
      ↔ (pid, 1) ∉ rs.map (fun r => (r.id, r.is_primary)) := by
  rw [List.find?_eq_none]
  constructor
  · intro h hmem
    obtain ⟨r, hr, he⟩ := List.mem_map.mp hmem
    have he' : r.id = pid ∧ r.is_primary = 1 :=
      ⟨congrArg Prod.fst he, congrArg Prod.snd he⟩
    exact h r hr ((primWithId_iff pid r).mpr he')
  · intro h r hr hpred
    have he := (primWithId_iff pid r).mp hpred
    exact h (List.mem_map.mpr ⟨r, hr, by simp [he.1, he.2]⟩)

/-- When the vector collection failed to initialise, or the query raises,
`find_similar` reports no match (the exception is caught). -/
theorem find_similar_unavailable_none (b : Backend) (st : PainStoreState)
    (c : String) (θ : ℚ)
    (hun : st.vectorAvailable = false ∨ b.queryFails c = true) :
    find_similar b st c θ = none := by
  unfold find_similar
  rcases hun with h | h
  · rw [if_pos h]
  · by_cases h1 : st.vectorAvailable = false
    · rw [if_pos h1]
    · rw [if_neg h1, if_pos h]

/-- A similarity miss survives any state change that leaves the vector
state and the `(id, is_primary)` skeleton intact. -/
theorem find_similar_none_stable (b : Backend) (st st' : PainStoreState)
    (c : String) (θ : ℚ)
    (h : find_similar b st c θ = none)
    (hva : st'.vectorAvailable = st.vectorAvailable)
    (hvd : st'.vectorDocs = st.vectorDocs)
    (hip : idPrim st' = idPrim st) :
    find_similar b st' c θ = none := by
  unfold find_similar at h ⊢
  rw [hva, hvd]
  by_cases h1 : st.vectorAvailable = false
  · rw [if_pos h1]
  rw [if_neg h1] at h ⊢
  by_cases h2 : b.queryFails c = true
  · rw [if_pos h2]
  rw [if_neg h2] at h ⊢
  rcases hnd : nearestDoc b.dist c st.vectorDocs with _ | ⟨pid, d⟩
  · rfl
  rw [hnd] at h
  replace h : (if θ ≤ similarity_from_distance d then
      match st.records.find? (primWithId pid) with
      | some pain => some pain
      | none => none
    else none) = none := h
  show (if θ ≤ similarity_from_distance d then
      match st'.records.find? (primWithId pid) with
      | some pain => some pain
      | none => none
    else none) = none
  by_cases h3 : θ ≤ similarity_from_distance d
  · rw [if_pos h3] at h ⊢
    rcases hf : st.records.find? (primWithId pid) with _ | q
    · have hnone : st'.records.find? (primWithId pid) = none := by
        rw [find?_prim_eq_none_iff]
        rw [find?_prim_eq_none_iff] at hf
        unfold idPrim at hip
        rw [hip]
        exact hf
      rw [hnone]
    · rw [hf] at h
      exact Option.noConfusion h
  · rw [if_neg h3]

/-! ## Shape lemmas for the three outcomes of `add_pain` -/

theorem merge_pain_def (b : Backend) (n : Nat) (st : PainStoreState)
    (p : Record) (c s : String) (tg : List String) (an : Option String) :
    merge_pain b n st p c s tg an =
      ({ st with
          records := updateRecord st.records p.id
            (fun _ => merged_record b n p c s tg an) },
       merged_record b n p c s tg an, false) := rfl

theorem merged_record_id (b : Backend) (n : Nat) (p : Record) (c s : String)
    (tg : List String) (an : Option String) :
    (merged_record b n p c s tg an).id = p.id := rfl

theorem merged_record_is_primary (b : Backend) (n : Nat) (p : Record) (c s : String)
    (tg : List String) (an : Option String) :
    (merged_record b n p c s tg an).is_primary = p.is_primary := rfl

theorem merged_record_frequency (b : Backend) (n : Nat) (p : Record) (c s : String)
    (tg : List String) (an : Option String) :
    (merged_record b n p c s tg an).frequency = p.frequency + 1 := rfl

theorem updated_existing_id (n : Nat) (tg : List String) (e : Record) :
    (updated_existing n tg e).id = e.id := rfl

theorem updated_existing_is_primary (n : Nat) (tg : List String) (e : Record) :
    (updated_existing n tg e).is_primary = e.is_primary := rfl

theorem updated_existing_frequency (n : Nat) (tg : List String) (e : Record) :
    (updated_existing n tg e).frequency = e.frequency + 1 := rfl

theorem new_record_id (b : Backend) (n : Nat) (a : AddArgs) (tg : List String) :
    (new_record b n a tg).id = generate_id b a.content a.source := rfl

theorem exact_branch_found (b : Backend) (n : Nat) (st : PainStoreState)
    (a : AddArgs) (tg : List String) (e : Record)
    (hf : st.records.find? (hasId (generate_id b a.content a.source)) = some e) :
    exact_branch b n st a tg =
      ({ st with
          records := updateRecord st.records (generate_id b a.content a.source)
            (fun _ => updated_existing n tg e) },
       updated_existing n tg e, false) := by
  simp only [exact_branch]
  rw [hf]

theorem exact_branch_miss (b : Backend) (n : Nat) (st : PainStoreState)
    (a : AddArgs) (tg : List String)
    (hf : st.records.find? (hasId (generate_id b a.content a.source)) = none) :
    exact_branch b n st a tg =
      (add_to_vector_db b { st with records := st.records ++ [new_record b n a tg] }
        (new_record b n a tg),
       new_record b n a tg, true) := by
  simp only [exact_branch]
  rw [hf]

theorem add_pain_merge_eq (b : Backend) (n : Nat) (st : PainStoreState)
    (a : AddArgs) (p : Record)
    (ham : a.auto_merge = true)
    (hfs : find_similar b st a.content SIMILARITY_THRESHOLD = some p) :
    add_pain b n st a
      = merge_pain b n st p a.content a.source (final_tags a) a.ai_analysis := by
  unfold add_pain
  rw [ham, hfs]
  rfl

theorem add_pain_exact_eq (b : Backend) (n : Nat) (st : PainStoreState) (a : AddArgs)
    (h : a.auto_merge = false ∨ find_similar b st a.content SIMILARITY_THRESHOLD = none) :
    add_pain b n st a = exact_branch b n st a (final_tags a) := by
  unfold add_pain
  cases ham : a.auto_merge
  · rfl
  · rcases h with h | h
    · rw [ham] at h
      exact Bool.noConfusion h
    · rw [h]
      rfl

/-- The three ways one `add_pain` call can go. -/
theorem add_pain_cases (b : Backend) (n : Nat) (st : PainStoreState) (a : AddArgs) :
    (∃ p, a.auto_merge = true
       ∧ find_similar b st a.content SIMILARITY_THRESHOLD = some p
       ∧ add_pain b n st a
           = merge_pain b n st p a.content a.source (final_tags a) a.ai_analysis)
    ∨ ((a.auto_merge = false ∨ find_similar b st a.content SIMILARITY_THRESHOLD = none)
       ∧ add_pain b n st a = exact_branch b n st a (final_tags a)) := by
  cases ham : a.auto_merge
  · exact Or.inr ⟨Or.inl rfl, add_pain_exact_eq b n st a (Or.inl ham)⟩
  · rcases hfs : find_similar b st a.content SIMILARITY_THRESHOLD with _ | p
    · exact Or.inr ⟨Or.inr rfl, add_pain_exact_eq b n st a (Or.inr hfs)⟩
    · exact Or.inl ⟨p, rfl, rfl, add_pain_merge_eq b n st a p ham hfs⟩

/-! ## Bookkeeping: the `(id, is_primary)` skeleton across one call -/

theorem ids_eq_idPrim_fst (st : PainStoreState) :
    st.records.map Record.id = (idPrim st).map Prod.fst := by
  unfold idPrim
  rw [List.map_map]
  rfl

theorem not_mem_ids_of_find?_none (rs : List Record) (gid : String)
    (hf : rs.find? (hasId gid) = none) : gid ∉ rs.map Record.id := by
  rw [List.find?_eq_none] at hf
  intro hmem
  obtain ⟨r, hr, he⟩ := List.mem_map.mp hmem
  exact hf r hr ((hasId_iff gid r).mpr he)

theorem idPrim_merge_pain (b : Backend) (n : Nat) (st : PainStoreState)
    (p : Record) (c s : String) (tg : List String) (an : Option String)
    (hmem : p ∈ st.records) (hnodup : (st.records.map Record.id).Nodup) :
    idPrim (merge_pain b n st p c s tg an).1 = idPrim st := by
  rw [merge_pain_def]
  exact idPrim_updateRecord st.records p.id _ p
    (find?_id_of_mem_nodup st.records p hmem hnodup) rfl rfl

theorem idPrim_exact_found (b : Backend) (n : Nat) (st : PainStoreState)
    (a : AddArgs) (tg : List String) (e : Record)
    (hf : st.records.find? (hasId (generate_id b a.content a.source)) = some e) :
    idPrim (exact_branch b n st a tg).1 = idPrim st := by
  rw [exact_branch_found b n st a tg e hf]
  exact idPrim_updateRecord st.records _ _ e hf rfl rfl

theorem idPrim_exact_miss (b : Backend) (n : Nat) (st : PainStoreState)
    (a : AddArgs) (tg : List String)
    (hf : st.records.find? (hasId (generate_id b a.content a.source)) = none) :
    idPrim (exact_branch b n st a tg).1
      = idPrim st ++ [(generate_id b a.content a.source, 1)] := by
  rw [exact_branch_miss b n st a tg hf]
  show idPrim (add_to_vector_db b
    { st with records := st.records ++ [new_record b n a tg] } (new_record b n a tg)) = _
  unfold idPrim
  rw [add_to_vector_db_records]
  simp [new_record]

/-- One `add_pain` call either keeps the `(id, is_primary)` skeleton and
reports a duplicate, or appends one fresh primary row and reports new. -/
theorem add_pain_idPrim (b : Backend) (n : Nat) (st : PainStoreState) (a : AddArgs)
    (hnodup : (st.records.map Record.id).Nodup) :
    (idPrim (add_pain b n st a).1 = idPrim st ∧ (add_pain b n st a).2.2 = false)
    ∨ (idPrim (add_pain b n st a).1
          = idPrim st ++ [(generate_id b a.content a.source, 1)]
        ∧ (add_pain b n st a).2.2 = true
        ∧ st.records.find? (hasId (generate_id b a.content a.source)) = none) := by
  rcases add_pain_cases b n st a with ⟨p, ham, hfs, heq⟩ | ⟨hmiss, heq⟩
  · obtain ⟨-, -, pid, d, -, -, hf, -, -⟩ := find_similar_some_elim b st _ _ p hfs
    have hmem : p ∈ st.records := List.mem_of_find?_eq_some hf
    left
    constructor
    · rw [heq]
      exact idPrim_merge_pain b n st p _ _ _ _ hmem hnodup
    · rw [heq, merge_pain_def]
  · rcases hcase : st.records.find? (hasId (generate_id b a.content a.source)) with _ | e
    · right
      refine ⟨?_, ?_, rfl⟩
      · rw [heq]
        exact idPrim_exact_miss b n st a _ hcase
      · rw [heq, exact_branch_miss b n st a _ hcase]
    · left
      constructor
      · rw [heq]
        exact idPrim_exact_found b n st a _ e hcase
      · rw [heq, exact_branch_found b n st a _ e hcase]

theorem nodup_ids_add_pain (b : Backend) (n : Nat) (st : PainStoreState) (a : AddArgs)
    (hnodup : (st.records.map Record.id).Nodup) :
    ((add_pain b n st a).1.records.map Record.id).Nodup := by
  rcases add_pain_idPrim b n st a hnodup with ⟨hip, -⟩ | ⟨hip, -, hnone⟩
  · rw [ids_eq_idPrim_fst, hip, ← ids_eq_idPrim_fst]
    exact hnodup
  · rw [ids_eq_idPrim_fst, hip]
    rw [List.map_append]
    rw [List.nodup_append]
    refine ⟨by rw [← ids_eq_idPrim_fst]; exact hnodup, by simp, ?_⟩
    intro x hx hx'
    simp only [List.map_cons, List.map_nil, List.mem_singleton] at hx'
    subst hx'
    rw [← ids_eq_idPrim_fst] at hx
    exact not_mem_ids_of_find?_none st.records _ hnone hx

theorem primaryCount_eq_idPrim (st : PainStoreState) :
    primaryCount st = ((idPrim st).filter (fun x => x.2 = 1)).length := by
  unfold primaryCount idPrim
  induction st.records with
  | nil => rfl
  | cons r rest ih =>
    by_cases hp : r.is_primary = 1
    · simp [hp, ih]
    · simp [List.filter_cons, hp, ih]

theorem primaryCount_add_pain (b : Backend) (n : Nat) (st : PainStoreState) (a : AddArgs)
    (hnodup : (st.records.map Record.id).Nodup) :
    primaryCount (add_pain b n st a).1 ≤ primaryCount st + 1 := by
  rcases add_pain_idPrim b n st a hnodup with ⟨hip, -⟩ | ⟨hip, -, -⟩
  · rw [primaryCount_eq_idPrim, hip, ← primaryCount_eq_idPrim]
    exact Nat.le_succ _
  · rw [primaryCount_eq_idPrim, hip, List.filter_append, List.length_append,
      ← primaryCount_eq_idPrim]
    have : (([(generate_id b a.content a.source, 1)]).filter
        (fun x => x.2 = 1)).length ≤ 1 := by simp
    omega

/-- No code path ever writes `is_primary = 0`: if every row of the table
is primary, every row remains primary after any `add_pain` call. -/
theorem add_pain_keeps_all_primary (b : Backend) (n : Nat) (st : PainStoreState)
    (a : AddArgs) (hinv : ∀ r ∈ st.records, r.is_primary = 1) :
    ∀ r ∈ (add_pain b n st a).1.records, r.is_primary = 1 := by
  intro r hr
  rcases add_pain_cases b n st a with ⟨p, ham, hfs, heq⟩ | ⟨hmiss, heq⟩
  · obtain ⟨-, -, pid, d, -, -, -, -, hprim1⟩ := find_similar_some_elim b st _ _ p hfs
    rw [heq, merge_pain_def] at hr
    rcases mem_updateRecord _ _ _ r hr with h | ⟨e, -, hre⟩
    · exact hinv r h
    · rw [hre]
      show p.is_primary = 1
      exact hprim1
  · rw [heq] at hr
    rcases hcase : st.records.find? (hasId (generate_id b a.content a.source)) with _ | e
    · rw [exact_branch_miss b n st a _ hcase] at hr
      rw [add_to_vector_db_records] at hr
      rcases List.mem_append.mp hr with h | h
      · exact hinv r h
      · rw [List.mem_singleton.mp h]
        rfl
    · rw [exact_branch_found b n st a _ e hcase] at hr
      rcases mem_updateRecord _ _ _ r hr with h | ⟨e', he', hre⟩
      · exact hinv r h
      · rw [hre]
        show e.is_primary = 1
        exact hinv e (List.mem_of_find?_eq_some hcase)

/-- After one `add_pain` call, resubmitting the same item must hit: either
the similarity tier fires (when auto-merge is on), or the exact fingerprint
row is present. -/
theorem add_pain_commits (b : Backend) (n : Nat) (st : PainStoreState) (a : AddArgs)
    (hnodup : (st.records.map Record.id).Nodup) :
    (a.auto_merge = true
      ∧ (find_similar b (add_pain b n st a).1 a.content SIMILARITY_THRESHOLD).isSome = true)
    ∨ generate_id b a.content a.source ∈ (add_pain b n st a).1.records.map Record.id := by
  rcases add_pain_cases b n st a with ⟨p, ham, hfs, heq⟩ | ⟨hmiss, heq⟩
  · left
    refine ⟨ham, ?_⟩
    rw [heq, merge_pain_def]
    rw [find_similar_updateRecord b st a.content SIMILARITY_THRESHOLD p
      (merged_record b n p a.content a.source (final_tags a) a.ai_analysis)
      hfs hnodup rfl rfl]
    rfl
  · right
    rcases hcase : st.records.find? (hasId (generate_id b a.content a.source)) with _ | e
    · rw [heq, exact_branch_miss b n st a _ hcase]
      show generate_id b a.content a.source ∈
        ((add_to_vector_db b
          { st with records := st.records ++ [new_record b n a (final_tags a)] }
          (new_record b n a (final_tags a))).records.map Record.id)
      rw [add_to_vector_db_records]
      simp [new_record]
    · have heid : e.id = generate_id b a.content a.source :=
        (hasId_iff _ e).mp (List.find?_some hcase)
      have hmem : e ∈ st.records := List.mem_of_find?_eq_some hcase
      have hgid : generate_id b a.content a.source ∈ st.records.map Record.id :=
        heid ▸ List.mem_map_of_mem Record.id hmem
      have hip := idPrim_exact_found b n st a (final_tags a) e hcase
      rw [heq, ids_eq_idPrim_fst, hip, ← ids_eq_idPrim_fst]
      exact hgid

/-- Resubmitting an item that is already committed (similarity hit
available or exact row present) never creates a row: the call reports a
duplicate, keeps the skeleton, and bumps the frequency of the row it
returns by exactly one. -/
theorem add_pain_second (b : Backend) (n2 : Nat) (st1 : PainStoreState) (a : AddArgs)
    (hnodup1 : (st1.records.map Record.id).Nodup)
    (hP : (a.auto_merge = true
            ∧ (find_similar b st1 a.content SIMILARITY_THRESHOLD).isSome = true)
          ∨ generate_id b a.content a.source ∈ st1.records.map Record.id) :
    (add_pain b n2 st1 a).2.2 = false
    ∧ idPrim (add_pain b n2 st1 a).1 = idPrim st1
    ∧ (add_pain b n2 st1 a).1.records.find? (hasId (add_pain b n2 st1 a).2.1.id)
        = some (add_pain b n2 st1 a).2.1
    ∧ ∃ old, st1.records.find? (hasId (add_pain b n2 st1 a).2.1.id) = some old
        ∧ (add_pain b n2 st1 a).2.1.frequency = old.frequency + 1 := by
  rcases add_pain_cases b n2 st1 a with ⟨p, ham, hfs, heq⟩ | ⟨hmiss, heq⟩
  · obtain ⟨-, -, pid, d, -, -, hf, hpid, hprim1⟩ :=
      find_similar_some_elim b st1 _ _ p hfs
    have hmem : p ∈ st1.records := List.mem_of_find?_eq_some hf
    have hfid : st1.records.find? (hasId p.id) = some p :=
      find?_id_of_mem_nodup st1.records p hmem hnodup1
    rw [heq, merge_pain_def]
    refine ⟨rfl, ?_, ?_, ⟨p, hfid, rfl⟩⟩
    · exact idPrim_updateRecord st1.records p.id _ p hfid rfl rfl
    · exact find?_id_updateRecord st1.records p.id _ p hfid rfl
  · have hgid : generate_id b a.content a.source ∈ st1.records.map Record.id := by
      rcases hP with ⟨ham, hsome⟩ | hgid
      · rcases hmiss with ham' | hfs'
        · rw [ham] at ham'
          exact Bool.noConfusion ham'
        · rw [hfs'] at hsome
          exact Bool.noConfusion hsome
      · exact hgid
    obtain ⟨r, hrmem, hrid⟩ := List.mem_map.mp hgid
    have hfound : st1.records.find? (hasId (generate_id b a.content a.source)) = some r := by
      rw [← hrid]
      exact find?_id_of_mem_nodup st1.records r hrmem hnodup1
    rw [heq, exact_branch_found b n2 st1 a _ r hfound]
    have hridg : (updated_existing n2 (final_tags a) r).id
        = generate_id b a.content a.source := hrid
    refine ⟨rfl, ?_, ?_, ⟨r, ?_, rfl⟩⟩
    · exact idPrim_updateRecord st1.records _ _ r hfound rfl rfl
    · show (updateRecord st1.records (generate_id b a.content a.source)
          (fun _ => updated_existing n2 (final_tags a) r)).find?
          (hasId (updated_existing n2 (final_tags a) r).id)
        = some (updated_existing n2 (final_tags a) r)
      rw [hridg]
      exact find?_id_updateRecord st1.records _ _ r hfound hridg
    · show st1.records.find? (hasId (updated_existing n2 (final_tags a) r).id) = some r
      rw [hridg]
      exact hfound

/-! ## Claim theorems -/

/-- **C4** — Cooldown eligibility: an identity absent from the history is
eligible; an identity recommended on day `D` with `cooldown_days = 30` is
ineligible on days `D+1 .. D+29` and eligible again exactly from `D+30`
on.  Eligibility is computed by the pure function `is_eligible` of the
stored history and the current day, so reads have no effect on state. -/
theorem c4_cooldown_boundary :
    (∀ (hist : List HistEntry) (today : Int) (name : String),
        (∀ e ∈ hist, e.name ≠ name) → is_eligible hist today name = true)
    ∧ (∀ (hist : List HistEntry) (name : String) (D k : Int),
        (∃ e ∈ hist, e.name = name) →
        (∀ e ∈ hist, e.name = name → e.recommended_at = D) →
        ((1 ≤ k ∧ k ≤ 29 → is_eligible hist (D + k) name = false)
          ∧ (30 ≤ k → is_eligible hist (D + k) name = true))) := by
  constructor
  · intro hist today name habs
    simp only [is_eligible, is_recently_recommended, Bool.not_eq_true',
      List.any_eq_false, decide_eq_true_eq]
    rintro e he ⟨hn, -⟩
    exact habs e he hn
  · intro hist name D k hex hall
    constructor
    · rintro ⟨hk1, hk2⟩
      simp only [is_eligible, is_recently_recommended, Bool.not_eq_false',
        List.any_eq_true, decide_eq_true_eq]
      obtain ⟨e, he, hname⟩ := hex
      refine ⟨e, he, hname, ?_⟩
      rw [hall e he hname]
      simp only [COOLDOWN_DAYS]
      omega
    · intro hk30
      simp only [is_eligible, is_recently_recommended, Bool.not_eq_true',
        List.any_eq_false, decide_eq_true_eq]
      rintro e he ⟨hname, hlt⟩
      rw [hall e he hname] at hlt
      simp only [COOLDOWN_DAYS] at hlt
      omega

theorem c4_cooldown_boundary_witness :
    is_eligible [] 100 "acme/widget" = true
    ∧ is_eligible [⟨"acme/widget", 10, 500⟩] (10 + 19) "acme/widget" = false
    ∧ is_eligible [⟨"acme/widget", 10, 500⟩] (10 + 30) "acme/widget" = true :=
  ⟨c4_cooldown_boundary.1 [] 100 "acme/widget" (by simp),
   (c4_cooldown_boundary.2 [⟨"acme/widget", 10, 500⟩] "acme/widget" 10 19
      ⟨⟨"acme/widget", 10, 500⟩, by simp, rfl⟩ (by decide)).1 (by decide),
   (c4_cooldown_boundary.2 [⟨"acme/widget", 10, 500⟩] "acme/widget" 10 30
      ⟨⟨"acme/widget", 10, 500⟩, by simp, rfl⟩ (by decide)).2 (by decide)⟩

/-- **C5** — Pruning safety: the pruning step of `_save_history` keeps
every entry whose `recommended_at` lies within the 90-day retention
window and drops every entry strictly older than the horizon; since the
horizon is at least the 30-day cooldown, pruning never changes any
eligibility answer at or after the pruning day. -/
theorem c5_pruning_safety :
    (∀ (hist : List HistEntry) (today : Int) (e : HistEntry),
        e ∈ hist → today - RETENTION_DAYS < e.recommended_at →
        e ∈ prune_history hist today)
    ∧ (∀ (hist : List HistEntry) (today : Int) (e : HistEntry),
        e ∈ hist → e.recommended_at < today - RETENTION_DAYS →
        e ∉ prune_history hist today)
    ∧ COOLDOWN_DAYS ≤ RETENTION_DAYS
    ∧ (∀ (hist : List HistEntry) (today today' : Int) (name : String),
        today ≤ today' →
        is_eligible (prune_history hist today) today' name
          = is_eligible hist today' name) := by
  refine ⟨?_, ?_, by decide, ?_⟩
  · intro hist today e he hin
    unfold prune_history
    rw [List.mem_filter]
    exact ⟨he, by simpa using hin⟩
  · intro hist today e he hold hmem
    unfold prune_history at hmem
    rw [List.mem_filter] at hmem
    have h2 := hmem.2
    simp only [decide_eq_true_eq] at h2
    omega
  · intro hist today today' name h
    unfold is_eligible
    congr 1
    unfold is_recently_recommended prune_history
    induction hist with
    | nil => rfl
    | cons r rest ih =>
      by_cases hk : today - RETENTION_DAYS < r.recommended_at
      · rw [List.filter_cons_of_pos (by simpa using hk)]
        rw [List.any_cons, List.any_cons, ih]
      · rw [List.filter_cons_of_neg (by simpa using hk)]
        rw [List.any_cons, ih]
        have hpred : decide (r.name = name
            ∧ today' - COOLDOWN_DAYS < r.recommended_at) = false := by
          simp only [decide_eq_false_iff_not]
          rintro ⟨-, hlt⟩
          simp only [RETENTION_DAYS] at hk
          simp only [COOLDOWN_DAYS] at hlt
          omega
        rw [hpred]
        simp

/-- **C2** — Idempotence of `submit_candidate`: on a store with unique
primary keys, submitting the same `(source, author, text)` twice creates
at most one primary row over the two calls, the second call reports
`is_new = false` and does not change the number of primary rows, and the
row the second call returns is stored with frequency exactly one above
the frequency that row had after the first call. -/
theorem c2_submit_candidate_idempotent (b : Backend) (n1 n2 : Nat)
    (st0 : PainStoreState) (a : AddArgs)
    (hnodup : (st0.records.map Record.id).Nodup) :
    (add_pain b n2 (add_pain b n1 st0 a).1 a).2.2 = false
    ∧ primaryCount (add_pain b n2 (add_pain b n1 st0 a).1 a).1
        ≤ primaryCount st0 + 1
    ∧ primaryCount (add_pain b n2 (add_pain b n1 st0 a).1 a).1
        = primaryCount (add_pain b n1 st0 a).1
    ∧ (add_pain b n2 (add_pain b n1 st0 a).1 a).1.records.find?
          (hasId (add_pain b n2 (add_pain b n1 st0 a).1 a).2.1.id)
        = some (add_pain b n2 (add_pain b n1 st0 a).1 a).2.1
    ∧ (∃ old, (add_pain b n1 st0 a).1.records.find?
          (hasId (add_pain b n2 (add_pain b n1 st0 a).1 a).2.1.id) = some old
        ∧ (add_pain b n2 (add_pain b n1 st0 a).1 a).2.1.frequency
            = old.frequency + 1) := by
  have hn1 := nodup_ids_add_pain b n1 st0 a hnodup
  have hP := add_pain_commits b n1 st0 a hnodup
  obtain ⟨hfalse, hip, hstored, hold⟩ :=
    add_pain_second b n2 (add_pain b n1 st0 a).1 a hn1 hP
  have hpc : primaryCount (add_pain b n2 (add_pain b n1 st0 a).1 a).1
      = primaryCount (add_pain b n1 st0 a).1 := by
    rw [primaryCount_eq_idPrim, hip, ← primaryCount_eq_idPrim]
  refine ⟨hfalse, ?_, hpc, hstored, hold⟩
  rw [hpc]
  exact primaryCount_add_pain b n1 st0 a hnodup

unseal Rat.add Rat.mul Rat.inv Rat.sub in
theorem c2_submit_candidate_idempotent_witness :
    ((emptyOnline.records.map Record.id).Nodup)
    ∧ ((add_pain plainBackend 1
          (add_pain plainBackend 0 emptyOnline (helloArgs "alice")).1
          (helloArgs "alice")).2.2 = false
      ∧ primaryCount (add_pain plainBackend 1
          (add_pain plainBackend 0 emptyOnline (helloArgs "alice")).1
          (helloArgs "alice")).1 ≤ primaryCount emptyOnline + 1
      ∧ primaryCount (add_pain plainBackend 1
          (add_pain plainBackend 0 emptyOnline (helloArgs "alice")).1
          (helloArgs "alice")).1
        = primaryCount (add_pain plainBackend 0 emptyOnline (helloArgs "alice")).1
      ∧ (add_pain plainBackend 1
          (add_pain plainBackend 0 emptyOnline (helloArgs "alice")).1
          (helloArgs "alice")).1.records.find?
            (hasId (add_pain plainBackend 1
              (add_pain plainBackend 0 emptyOnline (helloArgs "alice")).1
              (helloArgs "alice")).2.1.id)
        = some (add_pain plainBackend 1
            (add_pain plainBackend 0 emptyOnline (helloArgs "alice")).1
            (helloArgs "alice")).2.1
      ∧ (∃ old, (add_pain plainBackend 0 emptyOnline (helloArgs "alice")).1.records.find?
            (hasId (add_pain plainBackend 1
              (add_pain plainBackend 0 emptyOnline (helloArgs "alice")).1
              (helloArgs "alice")).2.1.id) = some old
          ∧ (add_pain plainBackend 1
              (add_pain plainBackend 0 emptyOnline (helloArgs "alice")).1
              (helloArgs "alice")).2.1.frequency = old.frequency + 1)) :=
  ⟨by decide,
   c2_submit_candidate_idempotent plainBackend 0 1 emptyOnline (helloArgs "alice")
     (by decide)⟩

unseal Rat.add Rat.mul Rat.inv Rat.sub in
/-- **C1** counterexample — the spec says the exact-fingerprint hit is
authoritative and the similarity tier is consulted only on an exact miss;
in the code `find_similar` runs first.  In `twoRowStore` the exact row
`rowA` for `("hello", "twitter")` is present, yet the call merges into
the similarity hit `rowB` and returns it instead of `rowA`. -/
theorem c1_exact_precedence_counterexample :
    rowA ∈ twoRowStore.records
    ∧ rowA.id = generate_id collidingBackend "hello" "twitter"
    ∧ (add_pain collidingBackend 0 twoRowStore (helloArgs "alice")).2.2 = false
    ∧ (add_pain collidingBackend 0 twoRowStore (helloArgs "alice")).2.1.id
        = "twitter:world"
    ∧ (add_pain collidingBackend 0 twoRowStore (helloArgs "alice")).2.1.id
        ≠ rowA.id := by
  refine ⟨by decide, by decide, by decide, by decide, by decide⟩

/-- **C1** amended — in `add_pain`, when `auto_merge` is on the similarity
tier is consulted FIRST and takes precedence: a similarity hit is merged
into even when an exact-fingerprint row exists.  The exact-match lookup is
authoritative only when the similarity tier misses (or `auto_merge` is
off): then an existing exact row is returned with `is_new = false` and no
row is created. -/
theorem c1_similarity_consulted_first (b : Backend) (n : Nat)
    (st : PainStoreState) (a : AddArgs) :
    (∀ p, a.auto_merge = true →
      find_similar b st a.content SIMILARITY_THRESHOLD = some p →
      add_pain b n st a
        = merge_pain b n st p a.content a.source (final_tags a) a.ai_analysis)
    ∧ ((a.auto_merge = false
          ∨ find_similar b st a.content SIMILARITY_THRESHOLD = none) →
       ∀ e, st.records.find? (hasId (generate_id b a.content a.source)) = some e →
         (add_pain b n st a).2.2 = false
         ∧ (add_pain b n st a).2.1 = updated_existing n (final_tags a) e
         ∧ idPrim (add_pain b n st a).1 = idPrim st) := by
  constructor
  · intro p ham hfs
    exact add_pain_merge_eq b n st a p ham hfs
  · intro hmiss e he
    rw [add_pain_exact_eq b n st a hmiss, exact_branch_found b n st a _ e he]
    exact ⟨rfl, rfl, idPrim_updateRecord st.records _ _ e he rfl rfl⟩

unseal Rat.add Rat.mul Rat.inv Rat.sub in
theorem c1_similarity_consulted_first_witness :
    (find_similar collidingBackend twoRowStore "hello" SIMILARITY_THRESHOLD
        = some rowB
     ∧ add_pain collidingBackend 0 twoRowStore (helloArgs "alice")
        = merge_pain collidingBackend 0 twoRowStore rowB "hello" "twitter"
            (final_tags (helloArgs "alice")) none)
    ∧ (find_similar plainBackend oneRowStore "hello" SIMILARITY_THRESHOLD = none
       ∧ (add_pain plainBackend 3 oneRowStore (helloArgs "alice")).2.2 = false) :=
  ⟨⟨by decide,
    (c1_similarity_consulted_first collidingBackend 0 twoRowStore
        (helloArgs "alice")).1 rowB rfl (by decide)⟩,
   ⟨by decide,
    ((c1_similarity_consulted_first plainBackend 3 oneRowStore
        (helloArgs "alice")).2 (Or.inr (by decide)) rowA (by decide)).1⟩⟩

unseal Rat.add Rat.mul Rat.inv Rat.sub in
/-- **C3** counterexample — the spec's fingerprint hashes the triple
(source, author, content-bytes); `PainStore._generate_id` hashes only
`f"{source}:{content}"`, with the author left out.  Submitting the same
text from the same source under two different authors therefore produces
the same exact id: the second call is treated as an exact duplicate
(`is_new = false`, frequency 2) instead of yielding a distinct identity
for the distinct triple. -/
theorem c3_fingerprint_ignores_author_counterexample :
    (helloArgs "alice").author ≠ (helloArgs "bob").author
    ∧ (add_pain plainBackend 0 emptyOnline (helloArgs "alice")).2.2 = true
    ∧ (add_pain plainBackend 1
         (add_pain plainBackend 0 emptyOnline (helloArgs "alice")).1
         (helloArgs "bob")).2.2 = false
    ∧ (add_pain plainBackend 1
         (add_pain plainBackend 0 emptyOnline (helloArgs "alice")).1
         (helloArgs "bob")).2.1.frequency = 2 := by
  refine ⟨by decide, by decide, by decide, by decide⟩

/-- **C3** amended — the fingerprint of `submit_candidate` is a
deterministic hash of exactly the pair (source, content-bytes): calls
with the same source and text get the same id whatever their authors;
distinct texts give distinct raw pre-images `f"{source}:{content}"`, and
distinct ids whenever the truncated hash does not collide on the two
pre-images. -/
theorem c3_fingerprint_source_content (b : Backend)
    (source content content' : String) (a1 a2 : AddArgs)
    (h1c : a1.content = content) (h1s : a1.source = source)
    (h2c : a2.content = content) (h2s : a2.source = source)
    (hne : content ≠ content')
    (hcol : b.hashFn (raw_fingerprint content source)
          = b.hashFn (raw_fingerprint content' source)
        → raw_fingerprint content source = raw_fingerprint content' source) :
    generate_id b a1.content a1.source = generate_id b a2.content a2.source
    ∧ raw_fingerprint content source ≠ raw_fingerprint content' source
    ∧ generate_id b content source ≠ generate_id b content' source := by
  refine ⟨by rw [h1c, h1s, h2c, h2s], ?_, ?_⟩
  · intro h
    exact hne (raw_fingerprint_inj_content source content content' h)
  · intro h
    unfold generate_id at h
    exact hne (raw_fingerprint_inj_content source content content' (hcol h))

theorem c3_fingerprint_source_content_witness :
    generate_id plainBackend (helloArgs "alice").content (helloArgs "alice").source
      = generate_id plainBackend (helloArgs "bob").content (helloArgs "bob").source
    ∧ raw_fingerprint "hello" "twitter" ≠ raw_fingerprint "world" "twitter"
    ∧ generate_id plainBackend "hello" "twitter"
        ≠ generate_id plainBackend "world" "twitter" :=
  c3_fingerprint_source_content plainBackend "twitter" "hello" "world"
    (helloArgs "alice") (helloArgs "bob") rfl rfl rfl rfl (by decide) (fun h => h)

/-- **C6** — Merge effects of `_merge_pain`: the primary's frequency goes
up by exactly one; its tags become the set union of the old tags and the
candidate tags; the candidate's exact fingerprint id ends up in
`merged_from` (appended when not yet recorded); the free-text analysis is
replaced exactly when the incoming analysis is non-empty and strictly
longer (longest wins); `updated_at` is refreshed; and the primary row
survives — the table keeps its size and still holds the (updated) row
under the primary's id. -/
theorem c6_merge_union_policy (b : Backend) (n : Nat) (st : PainStoreState)
    (p : Record) (c s : String) (tg : List String) (an : Option String)
    (hmem : p ∈ st.records) (hnodup : (st.records.map Record.id).Nodup) :
    (merge_pain b n st p c s tg an).2.1.frequency = p.frequency + 1
    ∧ (∀ t, t ∈ (merge_pain b n st p c s tg an).2.1.tags ↔ (t ∈ p.tags ∨ t ∈ tg))
    ∧ generate_id b c s ∈ (merge_pain b n st p c s tg an).2.1.merged_from
    ∧ (generate_id b c s ∉ p.merged_from →
        (merge_pain b n st p c s tg an).2.1.merged_from
          = p.merged_from ++ [generate_id b c s])
    ∧ (pyTruthy an = true →
        (p.ai_analysis.getD "").length < (an.getD "").length →
        (merge_pain b n st p c s tg an).2.1.ai_analysis = an)
    ∧ ((an.getD "").length ≤ (p.ai_analysis.getD "").length →
        (merge_pain b n st p c s tg an).2.1.ai_analysis = p.ai_analysis)
    ∧ (merge_pain b n st p c s tg an).2.1.updated_at = n
    ∧ (merge_pain b n st p c s tg an).1.records.length = st.records.length
    ∧ (merge_pain b n st p c s tg an).1.records.find? (hasId p.id)
        = some (merge_pain b n st p c s tg an).2.1 := by
  refine ⟨rfl, ?_, ?_, ?_, ?_, ?_, rfl, ?_, ?_⟩
  · intro t
    show t ∈ (p.tags ++ tg).dedup ↔ _
    rw [List.mem_dedup, List.mem_append]
  · show generate_id b c s ∈
      (if generate_id b c s ∈ p.merged_from then p.merged_from
       else p.merged_from ++ [generate_id b c s])
    by_cases hin : generate_id b c s ∈ p.merged_from
    · rw [if_pos hin]
      exact hin
    · rw [if_neg hin]
      simp
  · intro hnotin
    show (if generate_id b c s ∈ p.merged_from then p.merged_from
       else p.merged_from ++ [generate_id b c s]) = _
    rw [if_neg hnotin]
  · intro ht hlen
    show (if pyTruthy an ∧ (¬ pyTruthy p.ai_analysis
        ∨ (p.ai_analysis.getD "").length < (an.getD "").length)
      then an else p.ai_analysis) = an
    rw [if_pos ⟨ht, Or.inr hlen⟩]
  · intro hle
    show (if pyTruthy an ∧ (¬ pyTruthy p.ai_analysis
        ∨ (p.ai_analysis.getD "").length < (an.getD "").length)
      then an else p.ai_analysis) = p.ai_analysis
    rw [if_neg ?hcond]
    case hcond =>
      rintro ⟨ht, hor⟩
      rcases hor with hfalsy | hlt
      · have hempty : (p.ai_analysis.getD "").length = 0 := by
          cases hpa : p.ai_analysis with
          | none => rfl
          | some sv =>
            rw [hpa] at hfalsy
            have hsv : sv = "" := by
              by_contra hne2
              exact hfalsy (by simp [pyTruthy, hne2])
            simp [hsv]
        have hzero : (an.getD "").length = 0 := by omega
        cases han : an with
        | none =>
          rw [han] at ht
          exact Bool.noConfusion ht
        | some na =>
          rw [han] at ht hzero
          have hna : na = "" := string_eq_empty_of_length_eq_zero na (by simpa using hzero)
          rw [hna] at ht
          simp [pyTruthy] at ht
      · omega
  · show (updateRecord st.records p.id
      (fun _ => merged_record b n p c s tg an)).length = _
    exact updateRecord_length st.records p.id _
  · exact find?_id_updateRecord st.records p.id _ p
      (find?_id_of_mem_nodup st.records p hmem hnodup) rfl

theorem c6_merge_union_policy_witness :
    (merge_pain plainBackend 7 tagStore tagRow "next" "twitter" ["b", "c"] none).2.1.frequency
        = tagRow.frequency + 1
    ∧ ("a" ∈ (merge_pain plainBackend 7 tagStore tagRow "next" "twitter"
          ["b", "c"] none).2.1.tags ↔ ("a" ∈ tagRow.tags ∨ "a" ∈ ["b", "c"]))
    ∧ ("c" ∈ (merge_pain plainBackend 7 tagStore tagRow "next" "twitter"
          ["b", "c"] none).2.1.tags ↔ ("c" ∈ tagRow.tags ∨ "c" ∈ ["b", "c"]))
    ∧ generate_id plainBackend "next" "twitter"
        ∈ (merge_pain plainBackend 7 tagStore tagRow "next" "twitter"
            ["b", "c"] none).2.1.merged_from :=
  ⟨(c6_merge_union_policy plainBackend 7 tagStore tagRow "next" "twitter"
      ["b", "c"] none (by decide) (by decide)).1,
   (c6_merge_union_policy plainBackend 7 tagStore tagRow "next" "twitter"
      ["b", "c"] none (by decide) (by decide)).2.1 "a",
   (c6_merge_union_policy plainBackend 7 tagStore tagRow "next" "twitter"
      ["b", "c"] none (by decide) (by decide)).2.1 "c",
   (c6_merge_union_policy plainBackend 7 tagStore tagRow "next" "twitter"
      ["b", "c"] none (by decide) (by decide)).2.2.1⟩

/-- **C7** — Graceful degradation: when the vector collection failed to
initialise, or the similarity query raises for this content, `add_pain`
behaves exactly as the exact-match-only call (`auto_merge = False`); and
failures of the vector upsert never change the table or the returned
`(record, is_new)` pair — unavailability of the fuzzy tier cannot fail
the call. -/
theorem c7_graceful_degradation (b : Backend) (g : String → Bool) (n : Nat)
    (st : PainStoreState) (a : AddArgs)
    (hun : st.vectorAvailable = false ∨ b.queryFails a.content = true) :
    add_pain b n st a = add_pain b n st { a with auto_merge := false }
    ∧ (add_pain { b with upsertFails := g } n st a).1.records
        = (add_pain b n st a).1.records
    ∧ (add_pain { b with upsertFails := g } n st a).2 = (add_pain b n st a).2 := by
  have hnone : find_similar b st a.content SIMILARITY_THRESHOLD = none :=
    find_similar_unavailable_none b st a.content _ hun
  have hnone' : find_similar { b with upsertFails := g } st a.content
      SIMILARITY_THRESHOLD = none :=
    find_similar_unavailable_none _ st a.content _ hun
  have h1 : add_pain b n st a = exact_branch b n st a (final_tags a) :=
    add_pain_exact_eq b n st a (Or.inr hnone)
  have h1' : add_pain { b with upsertFails := g } n st a
      = exact_branch { b with upsertFails := g } n st a (final_tags a) :=
    add_pain_exact_eq _ n st a (Or.inr hnone')
  have h2 : add_pain b n st { a with auto_merge := false }
      = exact_branch b n st { a with auto_merge := false }
        (final_tags { a with auto_merge := false }) :=
    add_pain_exact_eq b n st _ (Or.inl rfl)
  refine ⟨?_, ?_, ?_⟩
  · rw [h1, h2]
    rfl
  · rw [h1, h1']
    rcases hf : st.records.find? (hasId (generate_id b a.content a.source)) with _ | e
    · have hf' : st.records.find? (hasId (generate_id
          { b with upsertFails := g } a.content a.source)) = none := hf
      rw [exact_branch_miss b n st a _ hf, exact_branch_miss _ n st a _ hf']
      rw [add_to_vector_db_records, add_to_vector_db_records]
      rfl
    · have hf' : st.records.find? (hasId (generate_id
          { b with upsertFails := g } a.content a.source)) = some e := hf
      rw [exact_branch_found b n st a _ e hf, exact_branch_found _ n st a _ e hf']
      rfl
  · rw [h1, h1']
    rcases hf : st.records.find? (hasId (generate_id b a.content a.source)) with _ | e
    · have hf' : st.records.find? (hasId (generate_id
          { b with upsertFails := g } a.content a.source)) = none := hf
      rw [exact_branch_miss b n st a _ hf, exact_branch_miss _ n st a _ hf']
      rfl
    · have hf' : st.records.find? (hasId (generate_id
          { b with upsertFails := g } a.content a.source)) = some e := hf
      rw [exact_branch_found b n st a _ e hf, exact_branch_found _ n st a _ e hf']

unseal Rat.add Rat.mul Rat.inv Rat.sub in
theorem c7_graceful_degradation_witness :
    (emptyOffline.vectorAvailable = false
      ∨ plainBackend.queryFails (helloArgs "alice").content = true)
    ∧ add_pain plainBackend 0 emptyOffline (helloArgs "alice")
        = add_pain plainBackend 0 emptyOffline
            { helloArgs "alice" with auto_merge := false }
    ∧ (add_pain { plainBackend with upsertFails := fun _ => true } 0 emptyOffline
          (helloArgs "alice")).1.records
        = (add_pain plainBackend 0 emptyOffline (helloArgs "alice")).1.records
    ∧ (add_pain { plainBackend with upsertFails := fun _ => true } 0 emptyOffline
          (helloArgs "alice")).2
        = (add_pain plainBackend 0 emptyOffline (helloArgs "alice")).2 :=
  ⟨Or.inl rfl,
   (c7_graceful_degradation plainBackend (fun _ => true) 0 emptyOffline
      (helloArgs "alice") (Or.inl rfl)).1,
   (c7_graceful_degradation plainBackend (fun _ => true) 0 emptyOffline
      (helloArgs "alice") (Or.inl rfl)).2.1,
   (c7_graceful_degradation plainBackend (fun _ => true) 0 emptyOffline
      (helloArgs "alice") (Or.inl rfl)).2.2⟩

theorem c5_pruning_safety_witness :
    (⟨"acme/widget", 40, 5⟩ : HistEntry) ∈ prune_history [⟨"acme/widget", 40, 5⟩] 100
    ∧ (⟨"old/repo", 1, 5⟩ : HistEntry) ∉ prune_history [⟨"old/repo", 1, 5⟩] 100
    ∧ is_eligible (prune_history [⟨"old/repo", 1, 5⟩] 100) 120 "old/repo"
        = is_eligible [⟨"old/repo", 1, 5⟩] 120 "old/repo" :=
  ⟨c5_pruning_safety.1 [⟨"acme/widget", 40, 5⟩] 100 ⟨"acme/widget", 40, 5⟩
      (by simp) (by decide),
   c5_pruning_safety.2.1 [⟨"old/repo", 1, 5⟩] 100 ⟨"old/repo", 1, 5⟩
      (by simp) (by decide),
   c5_pruning_safety.2.2.2 [⟨"old/repo", 1, 5⟩] 100 120 "old/repo" (by decide)⟩

unseal Rat.add Rat.mul Rat.inv Rat.sub in
/-- **C8** counterexample — the spec claims empty/malformed content is
rejected with a validation error and nothing is stored; `add_pain` has no
validation at all: an empty-content call creates and stores a new primary
record and reports `is_new = true`. -/
theorem c8_no_validation_counterexample :
    emptyContentArgs.content = ""
    ∧ (add_pain plainBackend 0 emptyOnline emptyContentArgs).2.2 = true
    ∧ (add_pain plainBackend 0 emptyOnline emptyContentArgs).1.records.length
        = emptyOnline.records.length + 1
    ∧ (add_pain plainBackend 0 emptyOnline emptyContentArgs).2.1.content = "" := by
  refine ⟨rfl, by decide, by decide, by decide⟩

/-- **C8** amended — `add_pain` performs no content validation: an
empty-content submission is fingerprinted and processed like any other;
when neither the similarity tier nor the exact lookup hits, it is stored
as a fresh record and the store is changed (one more row). -/
theorem c8_empty_content_stored (b : Backend) (n : Nat) (st : PainStoreState)
    (a : AddArgs) (hc : a.content = "")
    (hfs : a.auto_merge = false
      ∨ find_similar b st a.content SIMILARITY_THRESHOLD = none)
    (hex : st.records.find? (hasId (generate_id b a.content a.source)) = none) :
    (add_pain b n st a).2.2 = true
    ∧ (add_pain b n st a).1.records.length = st.records.length + 1
    ∧ (add_pain b n st a).2.1.content = "" := by
  rw [add_pain_exact_eq b n st a hfs, exact_branch_miss b n st a _ hex]
  refine ⟨rfl, ?_, hc⟩
  show (add_to_vector_db b
    { st with records := st.records ++ [new_record b n a (final_tags a)] }
    (new_record b n a (final_tags a))).records.length = st.records.length + 1
  rw [add_to_vector_db_records]
  simp

unseal Rat.add Rat.mul Rat.inv Rat.sub in
theorem c8_empty_content_stored_witness :
    emptyContentArgs.content = ""
    ∧ (emptyContentArgs.auto_merge = false
        ∨ find_similar plainBackend emptyOnline emptyContentArgs.content
            SIMILARITY_THRESHOLD = none)
    ∧ ((add_pain plainBackend 0 emptyOnline emptyContentArgs).2.2 = true
      ∧ (add_pain plainBackend 0 emptyOnline emptyContentArgs).1.records.length
          = emptyOnline.records.length + 1
      ∧ (add_pain plainBackend 0 emptyOnline emptyContentArgs).2.1.content = "") :=
  ⟨rfl, Or.inr (by decide),
   c8_empty_content_stored plainBackend 0 emptyOnline emptyContentArgs rfl
     (Or.inr (by decide)) (by decide)⟩

/-- **C10** — Frame of the similarity-merge path: the returned record
keeps the primary's id, content, normalized content, source, author,
original URL, category, severity and creation time (only frequency, tags,
merged_from, ai_analysis and updated_at may change); the table does not
grow, and no operation ever creates a row with `is_primary = 0` — if all
rows are primary before a call, all rows are primary after it. -/
theorem c10_merge_frame (b : Backend) (n : Nat) (st : PainStoreState)
    (a : AddArgs) (p : Record)
    (ham : a.auto_merge = true)
    (hfs : find_similar b st a.content SIMILARITY_THRESHOLD = some p) :
    ((add_pain b n st a).2.1.id = p.id
      ∧ (add_pain b n st a).2.1.content = p.content
      ∧ (add_pain b n st a).2.1.content_normalized = p.content_normalized
      ∧ (add_pain b n st a).2.1.source = p.source
      ∧ (add_pain b n st a).2.1.author = p.author
      ∧ (add_pain b n st a).2.1.original_url = p.original_url
      ∧ (add_pain b n st a).2.1.category = p.category
      ∧ (add_pain b n st a).2.1.severity = p.severity
      ∧ (add_pain b n st a).2.1.created_at = p.created_at)
    ∧ (add_pain b n st a).1.records.length = st.records.length
    ∧ (∀ (st' : PainStoreState) (a' : AddArgs) (n' : Nat),
        (∀ r ∈ st'.records, r.is_primary = 1) →
        ∀ r ∈ (add_pain b n' st' a').1.records, r.is_primary = 1) := by
  have heq := add_pain_merge_eq b n st a p ham hfs
  refine ⟨?_, ?_, ?_⟩
  · rw [heq]
    exact ⟨rfl, rfl, rfl, rfl, rfl, rfl, rfl, rfl, rfl⟩
  · rw [heq, merge_pain_def]
    exact updateRecord_length st.records p.id _
  · intro st' a' n' hinv
    exact add_pain_keeps_all_primary b n' st' a' hinv

unseal Rat.add Rat.mul Rat.inv Rat.sub in
theorem c10_merge_frame_witness :
    ((helloArgs "alice").auto_merge = true
      ∧ find_similar collidingBackend twoRowStore (helloArgs "alice").content
          SIMILARITY_THRESHOLD = some rowB)
    ∧ ((add_pain collidingBackend 0 twoRowStore (helloArgs "alice")).2.1.id = rowB.id
      ∧ (add_pain collidingBackend 0 twoRowStore (helloArgs "alice")).2.1.content
          = rowB.content
      ∧ (add_pain collidingBackend 0 twoRowStore (helloArgs "alice")).2.1.author
          = rowB.author
      ∧ (add_pain collidingBackend 0 twoRowStore (helloArgs "alice")).2.1.created_at
          = rowB.created_at)
    ∧ (add_pain collidingBackend 0 twoRowStore (helloArgs "alice")).1.records.length
        = twoRowStore.records.length
    ∧ (∀ r ∈ (add_pain collidingBackend 0 emptyOnline (helloArgs "alice")).1.records,
        r.is_primary = 1) :=
  ⟨⟨rfl, by decide⟩,
   ⟨(c10_merge_frame collidingBackend 0 twoRowStore (helloArgs "alice") rowB
        rfl (by decide)).1.1,
    (c10_merge_frame collidingBackend 0 twoRowStore (helloArgs "alice") rowB
        rfl (by decide)).1.2.1,
    (c10_merge_frame collidingBackend 0 twoRowStore (helloArgs "alice") rowB
        rfl (by decide)).1.2.2.2.2.1,
    (c10_merge_frame collidingBackend 0 twoRowStore (helloArgs "alice") rowB
        rfl (by decide)).1.2.2.2.2.2.2.2.2⟩,
   (c10_merge_frame collidingBackend 0 twoRowStore (helloArgs "alice") rowB
        rfl (by decide)).2.1,
   (c10_merge_frame collidingBackend 0 twoRowStore (helloArgs "alice") rowB
        rfl (by decide)).2.2 emptyOnline (helloArgs "alice") 0 (by decide)⟩

/-- **C9** — Candidate-pool shortfall: after cooldown and similarity
filtering, fewer than the 3 required novel items makes `select_projects`
signal insufficiency carrying the have/need counts (the `ValueError`
raised by the code, modelled as `Except.error (have, 3)`) instead of
returning a short list; on success it returns exactly 2 + 1 items all
drawn from the submitted pool (nothing fabricated); and the caller-side
retry picks a keyword not yet tried (`_get_next_keyword`). -/
theorem c9_insufficient_novel_candidates (hist : List HistEntry) (today : Int)
    (similarB : TrendingProject → Bool) (projects : List TrendingProject)
    (keyword : String) (tried : List String) :
    ((projects.filter (fun p =>
          ! is_recently_recommended hist today COOLDOWN_DAYS p.name
            && ! similarB p)).length < 3 →
      select_projects hist today similarB projects
        = Except.error ((projects.filter (fun p =>
            ! is_recently_recommended hist today COOLDOWN_DAYS p.name
              && ! similarB p)).length, 3))
    ∧ (∀ brief deep,
        select_projects hist today similarB projects = Except.ok (brief, deep) →
        brief.length = 2
          ∧ (∀ q ∈ brief, q ∈ projects)
          ∧ deep ∈ projects)
    ∧ (∀ kw, get_next_keyword keyword tried = some kw →
        (tried.map strToLower).contains (strToLower kw) = false) := by
  refine ⟨?_, ?_, ?_⟩
  · intro h
    simp only [select_projects]
    rw [if_pos h]
  · intro brief deep h
    simp only [select_projects] at h
    by_cases hlen : (projects.filter (fun p =>
        ! is_recently_recommended hist today COOLDOWN_DAYS p.name
          && ! similarB p)).length < 3
    · rw [if_pos hlen] at h
      exact Except.noConfusion h
    · rw [if_neg hlen] at h
      have hlen3 : 3 ≤ (projects.filter (fun p =>
          ! is_recently_recommended hist today COOLDOWN_DAYS p.name
            && ! similarB p)).length := Nat.le_of_not_lt hlen
      have hpair := Except.ok.inj h
      injection hpair with hb hd
      refine ⟨?_, ?_, ?_⟩
      · rw [← hb]
        rw [List.length_take, List.length_mergeSort]
        exact Nat.min_eq_left (by omega)
      · intro q hq
        rw [← hb] at hq
        have hq1 := List.mem_of_mem_take hq
        have hq2 := List.mem_mergeSort.mp hq1
        exact (List.mem_filter.mp hq2).1
      · rw [← hd]
        rcases hrem : (projects.filter (fun p =>
            ! is_recently_recommended hist today COOLDOWN_DAYS p.name
              && ! similarB p)).filter (fun p => ¬ p ∈ ((projects.filter (fun p =>
                ! is_recently_recommended hist today COOLDOWN_DAYS p.name
                  && ! similarB p)).mergeSort
                    (fun x y => y.today_stars ≤ x.today_stars)).take 2)
            with _ | ⟨r, rest⟩
        · rw [hrem]
          have h2 : 2 < ((projects.filter (fun p =>
              ! is_recently_recommended hist today COOLDOWN_DAYS p.name
                && ! similarB p)).mergeSort
                  (fun x y => y.today_stars ≤ x.today_stars)).length := by
            rw [List.length_mergeSort]
            omega
          rw [List.getD_eq_getElem _ _ h2]
          have hmem2 := List.getElem_mem h2
          have hmem3 := List.mem_mergeSort.mp hmem2
          exact (List.mem_filter.mp hmem3).1
        · rw [hrem]
          have hr : r ∈ (projects.filter (fun p =>
              ! is_recently_recommended hist today COOLDOWN_DAYS p.name
                && ! similarB p)).filter (fun p => ¬ p ∈ ((projects.filter (fun p =>
                  ! is_recently_recommended hist today COOLDOWN_DAYS p.name
                    && ! similarB p)).mergeSort
                      (fun x y => y.today_stars ≤ x.today_stars)).take 2) := by
            rw [hrem]
            exact List.mem_cons_self r rest
          have hr2 := (List.mem_filter.mp hr).1
          exact (List.mem_filter.mp hr2).1
  · intro kw h
    unfold get_next_keyword at h
    rcases hexp : KEYWORD_EXPANSION.find? (fun kv => kv.1 = keyword) with _ | kv
    · rw [hexp] at h
      replace h : FALLBACK_KEYWORDS.find?
          (fun k => ! (tried.map strToLower).contains (strToLower k)) = some kw := h
      have := List.find?_some h
      simpa using this
    · rw [hexp] at h
      replace h : (match kv.2.find?
            (fun k => ! (tried.map strToLower).contains (strToLower k)) with
          | some k => some k
          | none => FALLBACK_KEYWORDS.find?
              (fun k => ! (tried.map strToLower).contains (strToLower k))) = some kw := h
      rcases hf2 : kv.2.find?
          (fun k => ! (tried.map strToLower).contains (strToLower k)) with _ | kw2
      · rw [hf2] at h
        replace h : FALLBACK_KEYWORDS.find?
            (fun k => ! (tried.map strToLower).contains (strToLower k)) = some kw := h
        have := List.find?_some h
        simpa using this
      · rw [hf2] at h
        replace h : some kw2 = some kw := h
        have hk : kw2 = kw := Option.some.inj h
        subst hk
        have := List.find?_some hf2
        simpa using this

theorem c9_insufficient_novel_candidates_witness :
    (([sampleProject "a" 5, sampleProject "b" 3].filter
        (fun p => ! is_recently_recommended [] 0 COOLDOWN_DAYS p.name
          && ! (fun _ : TrendingProject => false) p)).length < 3)
    ∧ select_projects [] 0 (fun _ => false)
        [sampleProject "a" 5, sampleProject "b" 3]
      = Except.error (([sampleProject "a" 5, sampleProject "b" 3].filter
          (fun p => ! is_recently_recommended [] 0 COOLDOWN_DAYS p.name
            && ! (fun _ : TrendingProject => false) p)).length, 3)
    ∧ (["ai"].map strToLower).contains (strToLower "artificial intelligence")
        = false :=
  ⟨by decide,
   (c9_insufficient_novel_candidates [] 0 (fun _ => false)
      [sampleProject "a" 5, sampleProject "b" 3] "ai" ["ai"]).1 (by decide),
   (c9_insufficient_novel_candidates [] 0 (fun _ => false)
      [sampleProject "a" 5, sampleProject "b" 3] "ai" ["ai"]).2.2
      "artificial intelligence" (by decide)⟩

end HunterAI
